import Mathlib

/-!
Verification of the REMINDER-AI planning and temporal-dueness core.

Shallow embedding conventions:
- Instants (Python aware `datetime`) are modelled as integer minutes on a
  single global timeline.  A timezone (`ZoneInfo`) is modelled as an integer
  offset in minutes; `datetime.combine(day, t, tzinfo=tz)` becomes
  `combine tz day t = day * 1440 + t.minutes - tz`.  All datetime
  comparisons and subtractions in the sources happen between instants built
  with the same zone, for which this model is exact (sub-minute components
  and DST transitions are outside the minute-granularity data model of the
  program: every duration, window and grace parameter is a whole number of
  minutes).
- Calendar days (`date`) are integers (ordinal day numbers); `timedelta(days=1)`
  is `+ 1`.
- Python `time` values are `TimeOfDay` records of hour and minute.
- The sqlite-backed `Storage` is modelled as a list of task rows kept in
  insertion order together with the autoincrement counter; since ids are
  assigned in increasing order, insertion order coincides with the
  `ORDER BY id ASC` of `list_tasks`.
-/

namespace ReminderAI

/-- Priority from models.py: enumerated value urgent / important / optional. -/
inductive Priority where
  | urgent
  | important
  | optionalP
deriving DecidableEq, Repr

/-- TaskStatus from models.py. -/
inductive TaskStatus where
  | pending
  | doneS
  | skipped
deriving DecidableEq, Repr

/-- Python `time`: a local time of day (minute granularity). -/
structure TimeOfDay where
  hour : Nat
  minute : Nat
deriving DecidableEq, Repr

/-- Minutes after local midnight. -/
def TimeOfDay.minutes (t : TimeOfDay) : Nat := t.hour * 60 + t.minute

/-- Model of `datetime.combine(day, t, tzinfo=tz)` as an absolute instant in
minutes; `tz` is the zone offset in minutes. -/
def combine (tz : Int) (day : Int) (t : TimeOfDay) : Int :=
  day * 1440 + (t.minutes : Int) - tz

/-- PlanWindow from planner.py (reference defaults: 9:00, 18:00, 5). -/
structure PlanWindow where
  start_local : TimeOfDay
  end_local : TimeOfDay
  break_minutes : Int
deriving DecidableEq, Repr

/-- PlanTask from planner.py. -/
structure PlanTask where
  task_id : Int
  title : String
  estimated_minutes : Int
  due_local_time : Option TimeOfDay
  priority : Priority
deriving DecidableEq, Repr

/-- ScheduledBlock from models.py; `start_local` and `end_local` are instants
in minutes. -/
structure ScheduledBlock where
  task_id : Int
  title : String
  start_local : Int
  end_local : Int
  priority : Priority
deriving DecidableEq, Repr

/-- The `prio_rank` helper inside `build_schedule`. -/
def prio_rank : Priority → Nat
  | .urgent => 0
  | .important => 1
  | .optionalP => 2

/-- The `due_rank` helper inside `build_schedule`: tasks without a due time
rank `(1, 0)`, tasks with one rank `(0, hour * 60 + minute)`. -/
def due_rank (t : PlanTask) : Nat × Nat :=
  match t.due_local_time with
  | none => (1, 0)
  | some d => (0, d.hour * 60 + d.minute)

/-- The composite sort key of `build_schedule` as a boolean total preorder:
lexicographic comparison of `(prio_rank, due_rank, estimated_minutes, task_id)`,
exactly Python tuple comparison of the `sorted` key. -/
def key_le (s t : PlanTask) : Bool :=
  decide (prio_rank s.priority < prio_rank t.priority
    ∨ (prio_rank s.priority = prio_rank t.priority ∧ (due_rank s).1 < (due_rank t).1)
    ∨ (prio_rank s.priority = prio_rank t.priority ∧ (due_rank s).1 = (due_rank t).1
        ∧ (due_rank s).2 < (due_rank t).2)
    ∨ (prio_rank s.priority = prio_rank t.priority ∧ (due_rank s).1 = (due_rank t).1
        ∧ (due_rank s).2 = (due_rank t).2
        ∧ s.estimated_minutes < t.estimated_minutes)
    ∨ (prio_rank s.priority = prio_rank t.priority ∧ (due_rank s).1 = (due_rank t).1
        ∧ (due_rank s).2 = (due_rank t).2
        ∧ s.estimated_minutes = t.estimated_minutes
        ∧ s.task_id ≤ t.task_id))

/-- The placement loop of `build_schedule` (planner.py lines 58-75): walk the
sorted tasks with a cursor; a task whose duration (at least one minute) does
not fit before `e` stops the whole walk; after placing a block the cursor
advances by the duration plus the (clamped) break, and a cursor at or past
`e` also stops the walk. -/
def place (e k : Int) : Int → List PlanTask → List ScheduledBlock
  | _, [] => []
  | cur, t :: ts =>
    if e < cur + max 1 t.estimated_minutes then []
    else if e ≤ cur + max 1 t.estimated_minutes + max 0 k then
      [⟨t.task_id, t.title, cur, cur + max 1 t.estimated_minutes, t.priority⟩]
    else
      ⟨t.task_id, t.title, cur, cur + max 1 t.estimated_minutes, t.priority⟩
        :: place e k (cur + max 1 t.estimated_minutes + max 0 k) ts

/-- `build_schedule` from planner.py: sort by the composite key (Python
`sorted` is stable, as is `mergeSort`), then run the placement walk from the
window start to the window end. -/
def build_schedule (day tz : Int) (tasks : List PlanTask) (w : PlanWindow) :
    List ScheduledBlock :=
  place (combine tz day w.end_local) w.break_minutes (combine tz day w.start_local)
    (tasks.mergeSort key_le)

/-- Identity of a block: the task data it carries (id, title, priority). -/
def block_sig (b : ScheduledBlock) : Int × String × Priority :=
  (b.task_id, b.title, b.priority)

/-- Identity of a task as it appears in a block. -/
def task_sig (t : PlanTask) : Int × String × Priority :=
  (t.task_id, t.title, t.priority)

/-- DueCheck from jobs.py. -/
structure DueCheck where
  due_now : Bool
  scheduled_dt : Int
deriving DecidableEq, Repr

/-- `due_for_daily_send` from jobs.py: due when not already sent today, not
before the scheduled instant, and not more than `window_minutes` after it. -/
def due_for_daily_send (now today : Int) (when_local : TimeOfDay) (tz : Int)
    (last_sent_day : Option Int) (window_minutes : Int) : DueCheck :=
  let scheduled := combine tz today when_local
  if last_sent_day = some today then ⟨false, scheduled⟩
  else if now < scheduled then ⟨false, scheduled⟩
  else if window_minutes < now - scheduled then ⟨false, scheduled⟩
  else ⟨true, scheduled⟩

/-- `carryover_priority` from jobs.py. -/
def carryover_priority : Priority → Priority
  | .urgent => .urgent
  | .important => .urgent
  | .optionalP => .important

/-- Python `str.strip()`: drop whitespace from both ends. -/
def py_strip (s : String) : String :=
  ⟨((s.data.dropWhile Char.isWhitespace).reverse.dropWhile Char.isWhitespace).reverse⟩

/-- Python `str.lower()`: lowercase every character. -/
def py_lower (s : String) : String :=
  ⟨s.data.map Char.toLower⟩

/-- TaskDraft from prioritizer.py. -/
structure TaskDraft where
  title : String
  estimated_minutes : Int
  due_local_time : Option TimeOfDay
deriving DecidableEq, Repr

/-- The keyword tiers of `HeuristicPrioritizer.prioritize` (prioritizer.py
lines 59-64): urgent keywords, then important keywords, then optional.  The
two fixed regular expressions are abstracted as boolean matchers on the
(stripped) title; the claims quantify over them. -/
def keyword_tier (urgent_kw important_kw : String → Bool) (text : String) : Priority :=
  if urgent_kw text then .urgent
  else if important_kw text then .important
  else .optionalP

/-- One iteration of the loop in `HeuristicPrioritizer.prioritize`
(prioritizer.py lines 49-64): a draft with a due time at most 180 minutes
away (or already past) is urgent outright; otherwise the keyword tiers
decide. -/
def prioritize_one (urgent_kw important_kw : String → Bool)
    (tz now_local today : Int) (d : TaskDraft) : Priority :=
  match d.due_local_time with
  | some due =>
    if combine tz today due - now_local ≤ 180 then .urgent
    else keyword_tier urgent_kw important_kw (py_strip d.title)
  | none => keyword_tier urgent_kw important_kw (py_strip d.title)

/-- `HeuristicPrioritizer.prioritize`: map the per-draft classification over
the batch. -/
def prioritize (urgent_kw important_kw : String → Bool)
    (tz now_local today : Int) (drafts : List TaskDraft) : List Priority :=
  drafts.map (prioritize_one urgent_kw important_kw tz now_local today)

/-- JSON values, as produced by `json.loads`; `none` at the use sites below
stands for a reply text that fails to parse at all. -/
inductive JValue where
  | jnull
  | jbool (b : Bool)
  | jnum (n : Int)
  | jstr (s : String)
  | jarr (items : List JValue)
  | jobj (fields : List (String × JValue))

/-- `Priority(x2)`: StrEnum lookup by value; raises (here: `none`) on any
string other than the three exact value strings. -/
def priority_of_label (s : String) : Option Priority :=
  if s = "urgent" then some .urgent
  else if s = "important" then some .important
  else if s = "optional" then some .optionalP
  else none

/-- One element of the parsed reply array (prioritizer.py lines 120-123):
a non-string raises; a string is stripped, lowercased and looked up. -/
def label_value (v : JValue) : Option Priority :=
  match v with
  | .jstr s => priority_of_label (py_lower (py_strip s))
  | _ => none

/-- The element loop of `_parse_priority_json_array` (lines 118-124): map
`label_value` over the array, failing as a whole on the first bad element. -/
def map_labels : List JValue → Option (List Priority)
  | [] => some []
  | v :: vs =>
    match label_value v, map_labels vs with
    | some p, some ps => some (p :: ps)
    | _, _ => none

/-- `_parse_priority_json_array` from prioritizer.py: `parsed` is the result
of `json.loads` (`none` on parse failure).  Any failure — no parse, not a
list, wrong length, a non-string element, an unrecognized label — falls back
to all-Important of the expected length. -/
def parse_priority_json_array (parsed : Option JValue) (expected_len : Nat) :
    List Priority :=
  match parsed with
  | some (.jarr items) =>
    if items.length = expected_len then
      match map_labels items with
      | some out => out
      | none => List.replicate expected_len .important
    else List.replicate expected_len .important
  | _ => List.replicate expected_len .important

/-- A row of the sqlite `tasks` table (storage.py). -/
structure TaskRow where
  id : Nat
  telegram_user_id : Int
  title : String
  created_at : Int
  day : Int
  estimated_minutes : Int
  due_local_time : Option TimeOfDay
  priority : Priority
  status : TaskStatus
deriving DecidableEq, Repr

/-- The task table of `Storage`: rows in insertion order (ids are assigned
from the increasing autoincrement counter, so insertion order is id order)
plus the next id. -/
structure Store where
  rows : List TaskRow
  next_id : Nat
deriving DecidableEq, Repr

/-- `Storage.add_task`: insert a new pending row with a fresh id. -/
def add_task (s : Store) (user : Int) (title : String)
    (created_at day est : Int) (due : Option TimeOfDay) (p : Priority) : Store :=
  ⟨s.rows ++ [⟨s.next_id, user, title, created_at, day, est, due, p, .pending⟩],
   s.next_id + 1⟩

/-- `Storage.list_tasks`: rows of one user and day, optionally filtered by
status, in id order. -/
def list_tasks (s : Store) (user day : Int) (status : Option TaskStatus) :
    List TaskRow :=
  s.rows.filter fun r =>
    decide (r.telegram_user_id = user) && decide (r.day = day) &&
      (match status with
       | none => true
       | some st => decide (r.status = st))

/-- The storage effect of `BotApp._evening_check` (bot.py lines 323-352),
messages elided: if there are pending tasks today and tomorrow has no task
rows at all, carry each pending task to tomorrow with escalated priority;
in every other branch storage is untouched. -/
def evening_check (s : Store) (user today now_local : Int) : Store :=
  if (list_tasks s user today (some .pending)).isEmpty then s
  else if (list_tasks s user (today + 1) none).isEmpty then
    (list_tasks s user today (some .pending)).foldl
      (fun acc t =>
        add_task acc user t.title now_local (today + 1) t.estimated_minutes
          t.due_local_time (carryover_priority t.priority))
      s
  else s

/-! ### Helper lemmas about the composite key and the placement walk -/

theorem key_le_trans (a b c : PlanTask) :
    key_le a b = true → key_le b c = true → key_le a c = true := by
  simp only [key_le, decide_eq_true_eq]
  omega

theorem key_le_total (a b : PlanTask) : (key_le a b || key_le b a) = true := by
  simp only [key_le, Bool.or_eq_true, decide_eq_true_eq]
  omega

theorem key_le_rank {a b : PlanTask} (h : key_le a b = true) :
    prio_rank a.priority ≤ prio_rank b.priority := by
  simp only [key_le, decide_eq_true_eq] at h
  omega

theorem mem_place {e k : Int} :
    ∀ {ts : List PlanTask} {cur : Int} {b : ScheduledBlock}, b ∈ place e k cur ts →
      cur ≤ b.start_local ∧ b.start_local < b.end_local ∧ b.end_local ≤ e := by
  intro ts
  induction ts with
  | nil => intro cur b h; simp [place] at h
  | cons t ts ih =>
    intro cur b h
    simp only [place] at h
    split at h
    · simp at h
    · split at h
      · rename_i h1 h2
        simp only [List.mem_singleton] at h
        subst h
        refine ⟨le_refl _, ?_, ?_⟩ <;> dsimp only <;> omega
      · rename_i h1 h2
        rcases List.mem_cons.mp h with hb | hb
        · subst hb
          refine ⟨le_refl _, ?_, ?_⟩ <;> dsimp only <;> omega
        · have h3 := ih hb
          exact ⟨by omega, h3.2.1, h3.2.2⟩

theorem place_pairwise_sep {e k : Int} :
    ∀ {ts : List PlanTask} {cur : Int},
      (place e k cur ts).Pairwise fun a b => a.end_local ≤ b.start_local := by
  intro ts
  induction ts with
  | nil => intro cur; simp [place]
  | cons t ts ih =>
    intro cur
    simp only [place]
    split
    · exact List.Pairwise.nil
    · split
      · simp
      · refine List.Pairwise.cons ?_ ih
        intro b hb
        have h3 := (mem_place hb).1
        dsimp only
        omega

theorem place_sig_take {e k : Int} :
    ∀ {ts : List PlanTask} {cur : Int},
      ∃ n, (place e k cur ts).map block_sig = (ts.map task_sig).take n := by
  intro ts
  induction ts with
  | nil => intro cur; exact ⟨0, by simp [place]⟩
  | cons t ts ih =>
    intro cur
    simp only [place]
    split
    · exact ⟨0, by simp⟩
    · split
      · exact ⟨1, by simp [block_sig, task_sig]⟩
      · obtain ⟨n, hn⟩ := @ih (cur + max 1 t.estimated_minutes + max 0 k)
        exact ⟨n + 1, by simp [hn, block_sig, task_sig]⟩

theorem place_nil_of_ge {e k cur : Int} (h : e ≤ cur) :
    ∀ ts : List PlanTask, place e k cur ts = [] := by
  intro ts
  cases ts with
  | nil => simp [place]
  | cons t ts =>
    simp only [place]
    rw [if_pos (by omega)]

/-! ### Claim theorems for the scheduler -/

/-- C1: for every day, timezone, task sequence and plan window, the blocks
returned by `build_schedule` are strictly increasing in start time and
pairwise non-overlapping (each block ends no later than the next starts),
every block lies entirely within the window, and whenever placed task A has
strictly higher priority rank than placed task B, A starts no later than B. -/
theorem build_schedule_ordering_invariant (day tz : Int) (tasks : List PlanTask)
    (w : PlanWindow) :
    ((build_schedule day tz tasks w).Pairwise fun a b =>
        a.start_local < b.start_local) ∧
    ((build_schedule day tz tasks w).Pairwise fun a b =>
        a.end_local ≤ b.start_local) ∧
    (∀ b ∈ build_schedule day tz tasks w,
        combine tz day w.start_local ≤ b.start_local ∧
          b.start_local < b.end_local ∧
          b.end_local ≤ combine tz day w.end_local) ∧
    (∀ a ∈ build_schedule day tz tasks w, ∀ b ∈ build_schedule day tz tasks w,
        prio_rank a.priority < prio_rank b.priority →
          a.start_local ≤ b.start_local) := by
  simp only [build_schedule]
  have hmem : ∀ b ∈ place (combine tz day w.end_local) w.break_minutes
      (combine tz day w.start_local) (tasks.mergeSort key_le),
      combine tz day w.start_local ≤ b.start_local ∧
        b.start_local < b.end_local ∧
        b.end_local ≤ combine tz day w.end_local :=
    fun _ hb => mem_place hb
  have hsep : (place (combine tz day w.end_local) w.break_minutes
      (combine tz day w.start_local) (tasks.mergeSort key_le)).Pairwise
        fun a b => a.end_local ≤ b.start_local := place_pairwise_sep
  have hlt : (place (combine tz day w.end_local) w.break_minutes
      (combine tz day w.start_local) (tasks.mergeSort key_le)).Pairwise
        fun a b => a.start_local < b.start_local := by
    refine hsep.imp_of_mem ?_
    intro a b ha hb hab
    exact lt_of_lt_of_le (hmem a ha).2.1 hab
  have hsorted : (tasks.mergeSort key_le).Pairwise fun a b => key_le a b = true :=
    List.sorted_mergeSort key_le_trans key_le_total tasks
  have hrank_sorted : (tasks.mergeSort key_le).Pairwise
      fun a b => prio_rank a.priority ≤ prio_rank b.priority :=
    hsorted.imp key_le_rank
  obtain ⟨n, hn⟩ := @place_sig_take (combine tz day w.end_local)
    w.break_minutes (tasks.mergeSort key_le) (combine tz day w.start_local)
  have h1 : ((tasks.mergeSort key_le).map task_sig).Pairwise
      fun x y => prio_rank x.2.2 ≤ prio_rank y.2.2 :=
    List.pairwise_map.mpr hrank_sorted
  have h2 : (((tasks.mergeSort key_le).map task_sig).take n).Pairwise
      fun x y => prio_rank x.2.2 ≤ prio_rank y.2.2 :=
    List.Pairwise.sublist (List.take_sublist n _) h1
  have h3 : ((place (combine tz day w.end_local) w.break_minutes
      (combine tz day w.start_local) (tasks.mergeSort key_le)).map block_sig).Pairwise
        fun x y => prio_rank x.2.2 ≤ prio_rank y.2.2 := by
    rw [hn]; exact h2
  have hrank : (place (combine tz day w.end_local) w.break_minutes
      (combine tz day w.start_local) (tasks.mergeSort key_le)).Pairwise
        fun a b => prio_rank a.priority ≤ prio_rank b.priority :=
    (List.pairwise_map
      (f := block_sig) (R := fun x y => prio_rank x.2.2 ≤ prio_rank y.2.2)).mp h3
  refine ⟨hlt, hsep, hmem, ?_⟩
  have hc : (place (combine tz day w.end_local) w.break_minutes
      (combine tz day w.start_local) (tasks.mergeSort key_le)).Pairwise
        fun a b => prio_rank a.priority ≤ prio_rank b.priority ∧
          a.start_local < b.start_local :=
    List.pairwise_and_iff.mpr ⟨hrank, hlt⟩
  intro a ha b hb hr
  obtain ⟨i, hi, hia⟩ := List.getElem_of_mem ha
  obtain ⟨j, hj, hjb⟩ := List.getElem_of_mem hb
  have hp := List.pairwise_iff_getElem.mp hc
  rcases lt_trichotomy i j with hij | hij | hij
  · have hx := hp i j hi hj hij
    rw [hia, hjb] at hx
    exact le_of_lt hx.2
  · subst hij
    rw [hia] at hjb
    rw [hjb]
  · have hx := hp j i hj hi hij
    rw [hia, hjb] at hx
    exact absurd hr (not_lt.mpr hx.1)

/-- Witness for C1: the single block of a one-task schedule lies within the
9:00-18:00 window. -/
theorem build_schedule_ordering_invariant_witness :
    (⟨1, "a", 540, 570, Priority.urgent⟩ : ScheduledBlock)
        ∈ build_schedule 0 0 [⟨1, "a", 30, none, .urgent⟩] ⟨⟨9, 0⟩, ⟨18, 0⟩, 5⟩ ∧
    combine 0 0 ⟨9, 0⟩ ≤ (540 : Int) ∧ (540 : Int) < 570 ∧
      (570 : Int) ≤ combine 0 0 ⟨18, 0⟩ := by
  have hmem : (⟨1, "a", 540, 570, Priority.urgent⟩ : ScheduledBlock)
      ∈ build_schedule 0 0 [⟨1, "a", 30, none, .urgent⟩] ⟨⟨9, 0⟩, ⟨18, 0⟩, 5⟩ := by
    norm_num [build_schedule, place, combine, TimeOfDay.minutes]
  exact ⟨hmem,
    (build_schedule_ordering_invariant 0 0 [⟨1, "a", 30, none, .urgent⟩]
      ⟨⟨9, 0⟩, ⟨18, 0⟩, 5⟩).2.2.1 _ hmem⟩

/-- C2: `build_schedule` sorts its input by the composite key (priority rank,
then due-time rank, then estimated duration, then task id, ascending) and the
emitted blocks are a prefix of that sorted order. -/
theorem build_schedule_sorted_prefix_key (day tz : Int) (tasks : List PlanTask)
    (w : PlanWindow) :
    (tasks.mergeSort key_le).Perm tasks ∧
    ((tasks.mergeSort key_le).Pairwise fun s t => key_le s t = true) ∧
    ∃ n, (build_schedule day tz tasks w).map block_sig
      = ((tasks.mergeSort key_le).map task_sig).take n := by
  refine ⟨List.mergeSort_perm tasks key_le, ?_, ?_⟩
  · exact List.sorted_mergeSort key_le_trans key_le_total tasks
  · simp only [build_schedule]
    exact place_sig_take

/-- C3: the first task of the sorted walk whose duration does not fit before
the window end terminates placement entirely, whatever comes after it; an
empty task list, a window of non-positive span, and a single task longer than
the whole window all yield an empty schedule. -/
theorem build_schedule_window_exhaustion (e k cur day tz : Int) (t : PlanTask)
    (ts tasks : List PlanTask) (w : PlanWindow) :
    (e < cur + max 1 t.estimated_minutes → place e k cur (t :: ts) = []) ∧
    build_schedule day tz [] w = [] ∧
    (combine tz day w.end_local ≤ combine tz day w.start_local →
      build_schedule day tz tasks w = []) ∧
    (combine tz day w.end_local - combine tz day w.start_local
        < max 1 t.estimated_minutes →
      build_schedule day tz [t] w = []) := by
  refine ⟨?_, ?_, ?_, ?_⟩
  · intro h
    simp only [place]
    rw [if_pos h]
  · simp [build_schedule, place]
  · intro h
    simp only [build_schedule]
    exact place_nil_of_ge h _
  · intro h
    simp only [build_schedule, List.mergeSort_singleton]
    simp only [place]
    rw [if_pos (by omega)]

/-- Witness for C3: a head task that does not fit stops the walk with a
later task still pending; an inverted window and an oversized single task
(600 minutes in the 540-minute default window) produce empty schedules. -/
theorem build_schedule_window_exhaustion_witness :
    place 10 0 0 [⟨1, "a", 20, none, .urgent⟩, ⟨2, "b", 1, none, .urgent⟩] = [] ∧
    build_schedule 0 0 [⟨1, "a", 30, none, .urgent⟩] ⟨⟨10, 0⟩, ⟨9, 0⟩, 5⟩ = [] ∧
    build_schedule 0 0 [⟨1, "a", 600, none, .urgent⟩] ⟨⟨9, 0⟩, ⟨18, 0⟩, 5⟩ = [] :=
  ⟨(build_schedule_window_exhaustion 10 0 0 0 0 ⟨1, "a", 20, none, .urgent⟩
      [⟨2, "b", 1, none, .urgent⟩] [] ⟨⟨9, 0⟩, ⟨9, 0⟩, 0⟩).1 (by decide),
   (build_schedule_window_exhaustion 0 0 0 0 0 ⟨1, "a", 30, none, .urgent⟩
      [] [⟨1, "a", 30, none, .urgent⟩] ⟨⟨10, 0⟩, ⟨9, 0⟩, 5⟩).2.2.1 (by decide),
   (build_schedule_window_exhaustion 0 0 0 0 0 ⟨1, "a", 600, none, .urgent⟩
      [] [] ⟨⟨9, 0⟩, ⟨18, 0⟩, 5⟩).2.2.2 (by decide)⟩

/-! ### Claim theorems for dueness and carryover -/

/-- C4: `due_for_daily_send` is due exactly when it was not already sent
today, the current instant is at or after the scheduled instant, and at most
`window_minutes` after it — the upper bound inclusive; in particular a
matching `last_sent_day` forces not-due regardless of `now`. -/
theorem due_for_daily_send_due_iff (now today : Int) (when_local : TimeOfDay)
    (tz : Int) (last_sent_day : Option Int) (window_minutes : Int) :
    (due_for_daily_send now today when_local tz last_sent_day
        window_minutes).due_now = true ↔
      (last_sent_day ≠ some today ∧
        combine tz today when_local ≤ now ∧
        now - combine tz today when_local ≤ window_minutes) := by
  unfold due_for_daily_send
  dsimp only
  split_ifs with h1 h2 h3
  · simp [h1]
  · simp only [show (false = true) = False from by simp, false_iff]
    intro hc
    omega
  · simp only [show (false = true) = False from by simp, false_iff]
    intro hc
    omega
  · simp only [show (true = true) = True from by simp, true_iff]
    exact ⟨h1, by omega, by omega⟩

/-- C10: the `scheduled_dt` component of `due_for_daily_send` is
`combine tz today when_local` in every branch; it does not depend on `now`,
`last_sent_day` or `window_minutes`. -/
theorem due_for_daily_send_scheduled_const (now today : Int)
    (when_local : TimeOfDay) (tz : Int) (last_sent_day : Option Int)
    (window_minutes : Int) :
    (due_for_daily_send now today when_local tz last_sent_day
        window_minutes).scheduled_dt = combine tz today when_local := by
  unfold due_for_daily_send
  dsimp only
  split_ifs <;> rfl

/-- C7: `carryover_priority` is exactly Urgent→Urgent, Important→Urgent,
Optional→Important; it never de-escalates (the rank never increases), and
from Optional it reaches Urgent in two applications, Urgent being a fixed
point. -/
theorem carryover_priority_spec :
    carryover_priority .urgent = .urgent ∧
    carryover_priority .important = .urgent ∧
    carryover_priority .optionalP = .important ∧
    (∀ p, prio_rank (carryover_priority p) ≤ prio_rank p) ∧
    carryover_priority (carryover_priority .optionalP) = .urgent ∧
    carryover_priority .urgent = .urgent := by
  refine ⟨rfl, rfl, rfl, ?_, rfl, rfl⟩
  intro p
  cases p <;> simp [carryover_priority, prio_rank]

/-! ### Claim theorems for the classifier and the reply parser -/

/-- C5: in the deterministic classifier, a draft with a due time at most 180
minutes from now (or already past) is classified Urgent with the keyword
tiers skipped, whatever the keyword matchers say; with the due instant
strictly more than 180 minutes away, classification falls through to the
keyword tiers. -/
theorem heuristic_due_time_override (urgent_kw important_kw : String → Bool)
    (tz now today : Int) (d : TaskDraft) (due : TimeOfDay)
    (hdue : d.due_local_time = some due) :
    (combine tz today due - now ≤ 180 →
      prioritize_one urgent_kw important_kw tz now today d = .urgent) ∧
    (180 < combine tz today due - now →
      prioritize_one urgent_kw important_kw tz now today d
        = keyword_tier urgent_kw important_kw (py_strip d.title)) := by
  unfold prioritize_one
  rw [hdue]
  refine ⟨fun h => ?_, fun h => ?_⟩ <;> dsimp only
  · rw [if_pos h]
  · rw [if_neg (by omega)]

/-- Witness for C5: with the due instant 30 minutes away the draft is
urgent; with it 330 minutes away the keyword tiers decide. -/
theorem heuristic_due_time_override_witness :
    prioritize_one (fun _ => false) (fun _ => true) 0 0 0
        ⟨"call", 30, some ⟨0, 30⟩⟩ = .urgent ∧
    prioritize_one (fun _ => false) (fun _ => true) 0 (-300) 0
        ⟨"call", 30, some ⟨0, 30⟩⟩
      = keyword_tier (fun _ => false) (fun _ => true) (py_strip "call") :=
  ⟨(heuristic_due_time_override (fun _ => false) (fun _ => true) 0 0 0
      ⟨"call", 30, some ⟨0, 30⟩⟩ ⟨0, 30⟩ rfl).1 (by decide),
   (heuristic_due_time_override (fun _ => false) (fun _ => true) 0 (-300) 0
      ⟨"call", 30, some ⟨0, 30⟩⟩ ⟨0, 30⟩ rfl).2 (by decide)⟩

theorem map_labels_length :
    ∀ {vs : List JValue} {ps : List Priority},
      map_labels vs = some ps → ps.length = vs.length := by
  intro vs
  induction vs with
  | nil =>
    intro ps h
    simp only [map_labels, Option.some.injEq] at h
    subst h
    rfl
  | cons v vs ih =>
    intro ps h
    simp only [map_labels] at h
    cases hv : label_value v with
    | none => rw [hv] at h; simp at h
    | some p =>
      cases hm : map_labels vs with
      | none => rw [hv, hm] at h; simp at h
      | some ps2 =>
        rw [hv, hm] at h
        simp only [Option.some.injEq] at h
        subst h
        simp [ih hm]

/-- C6: for every reply (`none` standing for unparseable text) and expected
length, the parser returns either the elementwise-mapped list of recognized
labels of exactly the expected length, or the all-Important list of that
length; the result always has the expected length and is never a partial
mapping. -/
theorem parse_priority_all_or_nothing (parsed : Option JValue) (n : Nat) :
    (parse_priority_json_array parsed n).length = n ∧
    ((∃ items, parsed = some (JValue.jarr items) ∧ items.length = n ∧
        map_labels items = some (parse_priority_json_array parsed n)) ∨
      parse_priority_json_array parsed n = List.replicate n .important) := by
  cases parsed with
  | none => exact ⟨List.length_replicate n _, Or.inr rfl⟩
  | some v =>
    cases v with
    | jarr items =>
      by_cases hl : items.length = n
      · cases hm : map_labels items with
        | none =>
          refine ⟨?_, Or.inr ?_⟩ <;>
            simp [parse_priority_json_array, hl, hm]
        | some out =>
          have hout : parse_priority_json_array (some (JValue.jarr items)) n = out := by
            simp [parse_priority_json_array, hl, hm]
          refine ⟨?_, Or.inl ⟨items, rfl, hl, ?_⟩⟩
          · rw [hout, map_labels_length hm, hl]
          · rw [hout, hm]
      · refine ⟨?_, Or.inr ?_⟩ <;>
          simp [parse_priority_json_array, hl]
    | jnull => exact ⟨List.length_replicate n _, Or.inr rfl⟩
    | jbool b => exact ⟨List.length_replicate n _, Or.inr rfl⟩
    | jnum m => exact ⟨List.length_replicate n _, Or.inr rfl⟩
    | jstr s => exact ⟨List.length_replicate n _, Or.inr rfl⟩
    | jobj fields => exact ⟨List.length_replicate n _, Or.inr rfl⟩

/-- C9: the reply parser matches each label after stripping surrounding
whitespace and lowercasing, so a same-length string list whose elements
normalize to the three priority names is mapped elementwise rather than
falling back to all-Important. -/
theorem parse_priority_normalization (ss : List String)
    (h : ∀ s ∈ ss, (priority_of_label (py_lower (py_strip s))).isSome = true) :
    parse_priority_json_array (some (JValue.jarr (ss.map JValue.jstr))) ss.length
      = ss.map fun s => (priority_of_label (py_lower (py_strip s))).getD .important := by
  have hmap : ∀ ss : List String,
      (∀ s ∈ ss, (priority_of_label (py_lower (py_strip s))).isSome = true) →
      map_labels (ss.map JValue.jstr)
        = some (ss.map fun s =>
            (priority_of_label (py_lower (py_strip s))).getD .important) := by
    intro ss h
    induction ss with
    | nil => rfl
    | cons s ss ih =>
      have hs := h s (List.mem_cons_self s ss)
      obtain ⟨p, hp⟩ := Option.isSome_iff_exists.mp hs
      have hrest := ih fun x hx => h x (List.mem_cons_of_mem s hx)
      simp only [List.map_cons, map_labels, label_value, hrest, hp]
      simp [hp]
  have hlen : (ss.map JValue.jstr).length = ss.length := List.length_map ss JValue.jstr
  unfold parse_priority_json_array
  dsimp only
  rw [if_pos hlen, hmap ss h]

/-- Witness for C9: labels differing from the canonical names only in case
and surrounding whitespace are accepted and mapped, not defaulted. -/
theorem parse_priority_normalization_witness :
    parse_priority_json_array
        (some (JValue.jarr [JValue.jstr "  URGENT ", JValue.jstr "Important",
          JValue.jstr "optional"])) 3
      = [Priority.urgent, Priority.important, Priority.optionalP] := by
  have h := parse_priority_normalization ["  URGENT ", "Important", "optional"]
    (by decide)
  simp only [List.map_cons, List.map_nil, List.length_cons, List.length_nil] at h
  rw [h]
  decide

/-! ### Claim theorem for the evening carryover branch -/

/-- C8: when today still has pending tasks and tomorrow already has at least
one task row of any status, the evening check leaves storage exactly as it
was — in particular tomorrow's rows are unchanged — and conversely any
storage change requires pending tasks today and a task-free tomorrow. -/
theorem evening_check_non_clobber (s : Store) (user today now_local : Int) :
    (list_tasks s user today (some .pending) ≠ [] →
      list_tasks s user (today + 1) none ≠ [] →
      evening_check s user today now_local = s ∧
        list_tasks (evening_check s user today now_local) user (today + 1) none
          = list_tasks s user (today + 1) none) ∧
    (evening_check s user today now_local ≠ s →
      list_tasks s user today (some .pending) ≠ [] ∧
        list_tasks s user (today + 1) none = []) := by
  constructor
  · intro hp ha
    have h : evening_check s user today now_local = s := by
      unfold evening_check
      rw [if_neg (by simpa [List.isEmpty_iff] using hp),
        if_neg (by simpa [List.isEmpty_iff] using ha)]
    exact ⟨h, by rw [h]⟩
  · intro hne
    by_cases hp : list_tasks s user today (some .pending) = []
    · refine absurd ?_ hne
      unfold evening_check
      rw [if_pos (by simpa [List.isEmpty_iff] using hp)]
    · refine ⟨hp, ?_⟩
      by_cases ha : list_tasks s user (today + 1) none = []
      · exact ha
      · refine absurd ?_ hne
        unfold evening_check
        rw [if_neg (by simpa [List.isEmpty_iff] using hp),
          if_neg (by simpa [List.isEmpty_iff] using ha)]

/-- Witness for C8: a store with a pending task today and a task already
recorded tomorrow is returned untouched by the evening check. -/
theorem evening_check_non_clobber_witness :
    evening_check
        ⟨[⟨1, 7, "t", 0, 0, 30, none, .optionalP, .pending⟩,
          ⟨2, 7, "u", 0, 1, 30, none, .urgent, .pending⟩], 3⟩ 7 0 0
      = ⟨[⟨1, 7, "t", 0, 0, 30, none, .optionalP, .pending⟩,
          ⟨2, 7, "u", 0, 1, 30, none, .urgent, .pending⟩], 3⟩ :=
  ((evening_check_non_clobber
      ⟨[⟨1, 7, "t", 0, 0, 30, none, .optionalP, .pending⟩,
        ⟨2, 7, "u", 0, 1, 30, none, .urgent, .pending⟩], 3⟩ 7 0 0).1
    (by decide) (by decide)).1

end ReminderAI
